import Mathlib

set_option maxHeartbeats 1000000

/-!
Verification development for the Pioneer Lua-binding core
(src/PiLuaAPI.cpp, src/ShipType.h): the deletion-safe `ObjectWrapper`
handle, the tagged `UserDataSerialize`/`UserDataUnserialize` codec,
`LuaPi::SpawnShip`, and `EquipSet`.

C strings are modelled as `List Char` (the byte sequence of a
`std::string`).  Machine integers are modelled as `Nat`/`Int`; the
only places where a width conversion matters (the `(size_t)` cast of
the `atoi` result in `UserDataUnserialize`) take an explicit
`% 2 ^ 64`.
-/

/-! ### Models of the C numeric/string primitives (snprintf %d, atoi) -/

/-- One decimal digit character, as printed by `%d`. -/
def digitChar (d : Nat) : Char := Char.ofNat (48 + d)

/-- The decimal digits of `n`, most significant first: the characters
`snprintf` emits for `%d` applied to a nonnegative value. -/
def natDigits (n : Nat) : List Char :=
  if _h : n < 10 then [digitChar n]
  else natDigits (n / 10) ++ [digitChar (n % 10)]
decreasing_by omega

/-- Is `c` one of '0'..'9'?  (the `isdigit` test implicit in `atoi`). -/
def isDigitCh (c : Char) : Bool := 48 ≤ c.toNat && c.toNat ≤ 57

/-- Numeric value of a digit character. -/
def digitVal (c : Char) : Nat := c.toNat - 48

/-- The digit-consuming loop of `atoi`: reads decimal digits into an
accumulator and returns the value together with the unconsumed rest. -/
def parseNatRem : List Char → Nat → Nat × List Char
  | [], acc => (acc, [])
  | c :: cs, acc =>
    if isDigitCh c then parseNatRem cs (acc * 10 + digitVal c)
    else (acc, c :: cs)

/-- The C whitespace class skipped by `atoi`. -/
def isSpaceCh (c : Char) : Bool :=
  c = ' ' || c = '\t' || c = '\n' || c = '\x0b' || c = '\x0c' || c = '\r'

/-- Model of C `atoi`: skip whitespace, read an optional sign, then
decimal digits up to the first non-digit; no digits yields 0. -/
def atoi (cs : List Char) : Int :=
  match cs.dropWhile isSpaceCh with
  | [] => 0
  | c :: rest =>
    if c = '-' then -((parseNatRem rest 0).1 : Int)
    else if c = '+' then ((parseNatRem rest 0).1 : Int)
    else ((parseNatRem (c :: rest) 0).1 : Int)

/-- The `int → size_t` conversion applied to the `atoi` result at
PiLuaAPI.cpp:160 (`size_t idx = atoi(...)`). -/
def sizeTCast (i : Int) : Nat := (i % (2 ^ 64 : Int)).toNat

theorem digitChar_isDigit : ∀ d, d < 10 → isDigitCh (digitChar d) = true := by decide

theorem digitChar_val : ∀ d, d < 10 → digitVal (digitChar d) = d := by decide

theorem digitChar_not_space : ∀ d, d < 10 → isSpaceCh (digitChar d) = false := by decide

theorem digitChar_ne_minus : ∀ d, d < 10 → digitChar d ≠ '-' := by decide

theorem digitChar_ne_plus : ∀ d, d < 10 → digitChar d ≠ '+' := by decide

theorem natDigits_shape (n : Nat) :
    ∃ d cs, natDigits n = digitChar d :: cs ∧ d < 10 := by
  induction n using Nat.strong_induction_on with
  | _ n ih =>
    rw [natDigits]
    by_cases h : n < 10
    · exact ⟨n, [], by simp [h], h⟩
    · have hlt : n / 10 < n := by omega
      obtain ⟨d, cs, heq, hd⟩ := ih (n / 10) hlt
      refine ⟨d, cs ++ [digitChar (n % 10)], ?_, hd⟩
      simp [h, heq]

theorem parseNatRem_stop (cs : List Char) (acc : Nat)
    (h : ∀ c, cs.head? = some c → isDigitCh c = false) :
    parseNatRem cs acc = (acc, cs) := by
  cases cs with
  | nil => rfl
  | cons c cs' =>
    have := h c rfl
    simp [parseNatRem, this]

theorem parseNatRem_append (n : Nat) :
    ∀ (acc : Nat) (rest : List Char),
      parseNatRem (natDigits n ++ rest) acc
        = parseNatRem rest (acc * 10 ^ (natDigits n).length + n) := by
  induction n using Nat.strong_induction_on with
  | _ n ih =>
    intro acc rest
    rw [natDigits]
    by_cases h : n < 10
    · simp only [h, dite_true, List.cons_append, List.nil_append, List.length_cons,
        List.length_nil]
      rw [parseNatRem]
      simp [digitChar_isDigit n h, digitChar_val n h]
    · have hlt : n / 10 < n := by omega
      simp only [h, dite_false, List.append_assoc, List.cons_append, List.nil_append,
        List.length_append, List.length_cons, List.length_nil]
      rw [ih (n / 10) hlt acc (digitChar (n % 10) :: rest)]
      rw [parseNatRem]
      have h10 : n % 10 < 10 := Nat.mod_lt _ (by omega)
      simp only [digitChar_isDigit _ h10, if_true, digitChar_val _ h10]
      congr 1
      have hdm : n / 10 * 10 + n % 10 = n := by omega
      rw [Nat.add_mul, Nat.add_assoc, hdm, Nat.mul_assoc, ← Nat.pow_succ]

theorem parseNatRem_full (n : Nat) (acc : Nat) (rest : List Char)
    (h : ∀ c, rest.head? = some c → isDigitCh c = false) :
    parseNatRem (natDigits n ++ rest) acc
      = (acc * 10 ^ (natDigits n).length + n, rest) := by
  rw [parseNatRem_append, parseNatRem_stop rest _ h]

theorem atoi_natDigits (n : Nat) (rest : List Char)
    (h : ∀ c, rest.head? = some c → isDigitCh c = false) :
    atoi (natDigits n ++ rest) = n := by
  obtain ⟨d, cs, hshape, hd⟩ := natDigits_shape n
  rw [atoi]
  rw [hshape, List.cons_append, List.dropWhile_cons]
  rw [digitChar_not_space d hd]
  simp only [Bool.false_eq_true, if_false]
  rw [if_neg (digitChar_ne_minus d hd), if_neg (digitChar_ne_plus d hd)]
  rw [← List.cons_append, ← hshape, parseNatRem_full n 0 rest h]
  simp

/-! ### The Serializer field codec (spec-modelled)

`Serializer::Writer`/`Serializer::Reader` and the `Serialize`/
`Unserialize` members of `SysLoc`/`SBodyPath` are not in src/ (only
their call sites at PiLuaAPI.cpp:131-148 and 164-175 are); they are
modelled from the spec below. -/

/-- Modelled from the spec: `Serializer::Writer` (missing from src/)
renders each integer field of a hierarchical kind as signed decimal
text terminated by a newline — a "self-describing binary/text
encoding" of structural fields (spec section 4.4 and section 6). -/
def wrInt (i : Int) : List Char :=
  (if i < 0 then '-' :: natDigits (-i).toNat else natDigits i.toNat) ++ ['\n']

/-- Modelled from the spec: `Serializer::Reader` (missing from src/),
the inverse of `wrInt`: an optional sign, decimal digits, and the
newline terminator; returns the value and the unconsumed remainder. -/
def rdInt (cs : List Char) : Int × List Char :=
  match cs with
  | [] => (0, [])
  | c :: rest =>
    if c = '-' then
      let p := parseNatRem rest 0
      (-(p.1 : Int), p.2.drop 1)
    else
      let p := parseNatRem (c :: rest) 0
      ((p.1 : Int), p.2.drop 1)

/-- Modelled from the spec: a length-prefixed sequence of integer
fields ("a nested sequence of the same grammar applied recursively to
structural fields", spec section 6). -/
def wrIntList (l : List Int) : List Char :=
  wrInt (l.length : Int) ++ (l.map wrInt).flatten

/-- Modelled from the spec: reads `k` integer fields in sequence. -/
def rdIntN : Nat → List Char → List Int × List Char
  | 0, cs => ([], cs)
  | k + 1, cs =>
    let p := rdInt cs
    let q := rdIntN k p.2
    (p.1 :: q.1, q.2)

theorem parseNat_digits_newline (n : Nat) (rest : List Char) :
    parseNatRem (natDigits n ++ '\n' :: rest) 0 = (n, '\n' :: rest) := by
  rw [parseNatRem_full n 0 ('\n' :: rest) ?_]
  · simp
  · intro c h
    simp at h
    subst h
    decide

theorem rdInt_wrInt (i : Int) (rest : List Char) :
    rdInt (wrInt i ++ rest) = (i, rest) := by
  by_cases hneg : i < 0
  · have harr : wrInt i ++ rest = '-' :: (natDigits (-i).toNat ++ '\n' :: rest) := by
      simp [wrInt, hneg]
    have hstep : ∀ xs : List Char,
        rdInt ('-' :: xs) = (-((parseNatRem xs 0).1 : Int), (parseNatRem xs 0).2.drop 1) := by
      intro xs
      rfl
    rw [harr, hstep, parseNat_digits_newline]
    simp only [List.drop_succ_cons, List.drop_zero]
    have : ((-i).toNat : Int) = -i := Int.toNat_of_nonneg (by omega)
    rw [this, neg_neg]
  · have harr : wrInt i ++ rest = natDigits i.toNat ++ '\n' :: rest := by
      simp [wrInt, hneg]
    obtain ⟨d, cs, hshape, hd⟩ := natDigits_shape i.toNat
    rw [harr, hshape, List.cons_append, rdInt]
    rw [if_neg (digitChar_ne_minus d hd)]
    rw [← List.cons_append, ← hshape, parseNat_digits_newline]
    simp only [List.drop_succ_cons, List.drop_zero]
    have : (i.toNat : Int) = i := Int.toNat_of_nonneg (by omega)
    rw [this]

theorem rdIntN_wrInts (l : List Int) (rest : List Char) :
    rdIntN l.length ((l.map wrInt).flatten ++ rest) = (l, rest) := by
  induction l with
  | nil => simp [rdIntN]
  | cons x xs ih =>
    simp only [List.length_cons, List.map_cons, List.flatten_cons, List.append_assoc]
    rw [rdIntN]
    simp only [rdInt_wrInt x ((xs.map wrInt).flatten ++ rest), ih]

/-! ### Entities and the ObjectWrapper handle (PiLuaAPI.cpp:28-99) -/

abbrev ObjId := Nat

abbrev HandleId := Nat

/-- Entity kinds.  Modelled from the spec: the kind set is "a closed
but extensible set (e.g. generic body, ship, station)" (spec section
3); the concrete members are the `Object::Type` values tested in
PiLuaAPI.cpp (`BODY`, `SHIP`, `SPACESTATION`). -/
inductive ObjectType
  | BODY
  | SHIP
  | SPACESTATION
deriving DecidableEq, Repr

/-- Modelled from the spec: the `Object::IsType` hierarchy test used
by `ObjectWrapper::Is` (the `Object`/`Body`/`Ship` class hierarchy is
not in src/).  A ship and a station are bodies (spec section 3 lists
"generic body, ship, station" as the kinds). -/
def isTypeKind (k t : ObjectType) : Bool :=
  match k, t with
  | .BODY, .BODY => true
  | .SHIP, .SHIP => true
  | .SHIP, .BODY => true
  | .SPACESTATION, .SPACESTATION => true
  | .SPACESTATION, .BODY => true
  | _, _ => false

/-- The simulation-owned entity state read/written through the
wrapper: its kind, its money (integer cents, `Sint64`), its label. -/
structure Object where
  kind : ObjectType
  money : Int
  label : String
deriving DecidableEq, Repr

/-- `ObjectWrapper` (PiLuaAPI.h/PiLuaAPI.cpp): the single data member
that the handle operations read is `m_obj`, a nullable entity
reference; `none` is the detached state set by `OnDelete`
(PiLuaAPI.cpp:97 `m_obj = 0`). -/
structure ObjectWrapper where
  m_obj : Option ObjId
deriving DecidableEq, Repr

/-- The single-threaded simulation state the handle operations run
against: the live entities, the live wrappers, and the deletion-signal
subscriptions (`onDelete.connect`, PiLuaAPI.cpp:29). -/
structure SimState where
  objs : List (ObjId × Object)
  handles : List (HandleId × ObjectWrapper)
  subs : List (ObjId × HandleId)
deriving DecidableEq, Repr

def lookupObj (st : SimState) (oid : ObjId) : Option Object :=
  (st.objs.find? (fun p => p.1 == oid)).map (fun p => p.2)

def lookupHandle (st : SimState) (hid : HandleId) : Option ObjectWrapper :=
  (st.handles.find? (fun p => p.1 == hid)).map (fun p => p.2)

/-- `ObjectWrapper::ObjectWrapper(Object *o)` (PiLuaAPI.cpp:28-30):
stores the entity relation in `m_obj` and connects `OnDelete` to the
entity's deletion signal. -/
def ObjectWrapper.new (st : SimState) (hid : HandleId) (oid : ObjId) : SimState :=
  { st with
    handles := (hid, ⟨some oid⟩) :: st.handles
    subs := (oid, hid) :: st.subs }

/-- `ObjectWrapper::OnDelete` (PiLuaAPI.cpp:95-99): the relation is
nulled (`m_obj = 0`); the subscription removal (`m_delCon.disconnect`)
is carried out on `SimState.subs` by `notifyDestruction`. -/
def ObjectWrapper.OnDelete (_w : ObjectWrapper) : ObjectWrapper := ⟨none⟩

/-- Modelled from the spec: `DeletionNotifier.NotifyDestruction`
(spec section 4.1) — the sigc signal emission fired by the simulation
just before an entity dies (the signal machinery is not in src/).
Every subscribed wrapper's `OnDelete` (PiLuaAPI.cpp:95-99) runs,
nulling its relation and dropping its subscription; the entity is then
removed from the live set. -/
def notifyDestruction (st : SimState) (oid : ObjId) : SimState :=
  { objs := st.objs.filter (fun p => p.1 != oid)
    handles := st.handles.map
      (fun p => (p.1, if (oid, p.1) ∈ st.subs then ObjectWrapper.OnDelete p.2 else p.2))
    subs := st.subs.filter (fun p => p.1 != oid) }

/-- `ObjectWrapper::~ObjectWrapper` (PiLuaAPI.cpp:88-91):
`m_delCon.disconnect()` runs unconditionally — whether or not the
wrapper already detached — and the wrapper is gone. -/
def ObjectWrapper.destroy (st : SimState) (hid : HandleId) : SimState :=
  { st with
    handles := st.handles.filter (fun p => p.1 != hid)
    subs := st.subs.filter (fun p => p.2 != hid) }

/-- `ObjectWrapper::Is(Object::Type t)` (PiLuaAPI.cpp:92-94):
`m_obj && m_obj->IsType(t)`.  A detached wrapper (null `m_obj`) is
never of any type; an attached wrapper's entity is live (the deletion
notification nulls `m_obj` before the entity dies), so the pointer
dereference is modelled by the entity lookup. -/
def ObjectWrapper.Is (st : SimState) (w : ObjectWrapper) (t : ObjectType) : Bool :=
  match w.m_obj with
  | none => false
  | some oid =>
    match lookupObj st oid with
    | none => false
    | some o => isTypeKind o.kind t

/-- `ObjectWrapper::GetMoney` (PiLuaAPI.cpp:34-41): if the wrapped
entity is a ship, `0.01 *` its money, else 0.  The C `double` result
is modelled as an exact rational. -/
def ObjectWrapper.GetMoney (st : SimState) (w : ObjectWrapper) : Rat :=
  if ObjectWrapper.Is st w .SHIP then
    match w.m_obj with
    | some oid =>
      match lookupObj st oid with
      | some o => (o.money : Rat) / 100
      | none => 0
    | none => 0
  else 0

/-- `ObjectWrapper::GetLabel` (PiLuaAPI.cpp:49-55): the body's label,
or the empty string when the wrapper is detached or the entity is not
a body. -/
def ObjectWrapper.GetLabel (st : SimState) (w : ObjectWrapper) : String :=
  if ObjectWrapper.Is st w .BODY then
    match w.m_obj with
    | some oid =>
      match lookupObj st oid with
      | some o => o.label
      | none => ""
    | none => ""
  else ""

/-- `ObjectWrapper::SetMoney` (PiLuaAPI.cpp:43-48): if the wrapped
entity is a ship, store `(Sint64)(m*100.0)`; the C cast truncates
toward zero, modelled by `Int.tdiv` on the rational's numerator. -/
def ObjectWrapper.SetMoney (st : SimState) (hid : HandleId) (m : Rat) : SimState :=
  match lookupHandle st hid with
  | none => st
  | some w =>
    if ObjectWrapper.Is st w .SHIP then
      match w.m_obj with
      | some oid =>
        let cents : Int := Int.tdiv (m * 100).num ((m * 100).den : Int)
        let upd := fun (p : ObjId × Object) =>
          if p.1 = oid then (p.1, { p.2 with money := cents }) else p
        { st with objs := st.objs.map upd }
      | none => st
    else st

/-- The events that can touch the simulation state in the
single-threaded model: constructing a wrapper, an entity's destruction
notification, destroying a wrapper, and a representative
entity-mutating binding call (`SetMoney`). -/
inductive SimEvent
  | newHandle (hid : HandleId) (oid : ObjId)
  | destroyEntity (oid : ObjId)
  | destroyHandle (hid : HandleId)
  | setMoney (hid : HandleId) (m : Rat)

def applyEvent (st : SimState) : SimEvent → SimState
  | .newHandle hid oid => ObjectWrapper.new st hid oid
  | .destroyEntity oid => notifyDestruction st oid
  | .destroyHandle hid => ObjectWrapper.destroy st hid
  | .setMoney hid m => ObjectWrapper.SetMoney st hid m

/-- Well-formedness of an event against a state: a freshly constructed
wrapper is a new C++ object, so its identity is not already a live
wrapper or a stale subscription, and it wraps a live entity. -/
def EvOK (st : SimState) : SimEvent → Prop
  | .newHandle hid oid =>
      hid ∉ st.handles.map Prod.fst ∧ hid ∉ st.subs.map Prod.snd ∧
        (lookupObj st oid).isSome = true
  | _ => True

/-- The state of a wrapper that is attached to entity `oid`: it reports
the entity as its live relation and holds exactly one deletion-signal
subscription, on that entity. -/
def HandleAttached (st : SimState) (hid : HandleId) (oid : ObjId) : Prop :=
  lookupHandle st hid = some ⟨some oid⟩ ∧ (oid, hid) ∈ st.subs ∧
    ∀ o', (o', hid) ∈ st.subs → o' = oid

/-! ### The hierarchical reference kinds and the identity registry -/

/-- Modelled from the spec: `SysLoc` is "a sector/system coordinate
triple" (spec sections 3 and 6); the fields are those of the
constructor call `SysLoc(SectorX(), SectorY(), SystemIdx())` at
PiLuaAPI.cpp:220.  An immutable value type. -/
structure SysLoc where
  sectorX : Int
  sectorY : Int
  systemNum : Int
deriving DecidableEq, Repr

/-- Modelled from the spec: `SBodyPath` is the "hierarchical body
path" kind — "a path through a static universe tree" rooted at a
system location (spec sections 2 and 3).  An immutable value type. -/
structure SBodyPath where
  loc : SysLoc
  elems : List Int
deriving DecidableEq, Repr

/-- Modelled from the spec: `SysLoc::Serialize` (missing from src/)
writes the three coordinate fields through `Serializer::Writer`. -/
def SysLoc.Serialize (s : SysLoc) : List Char :=
  wrInt s.sectorX ++ wrInt s.sectorY ++ wrInt s.systemNum

/-- Modelled from the spec: `SysLoc::Unserialize` (missing from src/)
reads the three coordinate fields back. -/
def SysLoc.Unserialize (cs : List Char) : SysLoc × List Char :=
  let p1 := rdInt cs
  let p2 := rdInt p1.2
  let p3 := rdInt p2.2
  (⟨p1.1, p2.1, p3.1⟩, p3.2)

/-- Modelled from the spec: `SBodyPath::Serialize` (missing from
src/) writes the system location followed by the tree path as a
length-prefixed field sequence. -/
def SBodyPath.Serialize (p : SBodyPath) : List Char :=
  p.loc.Serialize ++ wrIntList p.elems

/-- Modelled from the spec: `SBodyPath::Unserialize` (missing from
src/), the inverse of `SBodyPath.Serialize`. -/
def SBodyPath.Unserialize (cs : List Char) : SBodyPath × List Char :=
  let pl := SysLoc.Unserialize cs
  let pn := rdInt pl.2
  let pe := rdIntN pn.1.toNat pn.2
  (⟨pl.1, pe.1⟩, pe.2)

/-- Modelled from the spec: the StableIdentityRegistry (the
`Serializer::LookupBody` body index, missing from src/): a fixed
enumeration of the live bodies for one save/load pass; an entity's id
is its position in the enumeration (spec section 4.3). -/
structure Registry where
  bodies : List ObjId
deriving DecidableEq, Repr

/-- `Serializer::LookupBody(Body*)` as called at PiLuaAPI.cpp:128:
the id assigned to a body.  Modelled from the spec: "returns the
previously assigned id ... deterministic given a fixed Entity
enumeration order" (spec section 4.3). -/
def Serializer.LookupBodyId (reg : Registry) (oid : ObjId) : Nat :=
  reg.bodies.indexOf oid

/-- `Serializer::LookupBody(size_t)` as called at PiLuaAPI.cpp:161:
the body assigned to an id.  Modelled from the spec: resolution of an
id never produced in this session fails (yields no entity, spec
section 4.3); the call site wraps the raw result without checking. -/
def Serializer.LookupBody (reg : Registry) (idx : Nat) : Option ObjId :=
  reg.bodies.get? idx

/-! ### The tagged persistence codec (PiLuaAPI.cpp:119-178) -/

/-- The userdata values that can reach `UserDataSerialize`: the three
kinds with a codec branch, plus the two registered userdata classes
without one (`SoundEvent`, `LuaChatForm`). -/
inductive LuaValue
  | wrapper (w : ObjectWrapper)
  | sbodyPath (p : SBodyPath)
  | sysLoc (s : SysLoc)
  | soundEvent
  | chatForm
deriving DecidableEq, Repr

/-- `UserDataSerialize` (PiLuaAPI.cpp:119-153).  An `ObjectWrapper`
payload is `snprintf("ObjectWrapper\n%d\n", LookupBody(m_obj))`; the
hierarchical kinds are their tag line followed by their
`Serialize` data; any other userdata kind reaches
`Error("Tried to serialize unknown userdata type.")` and produces no
payload (`none`), as does a wrapper that fails the
`assert(o->IsBody())` at line 127. -/
def UserDataSerialize (st : SimState) (reg : Registry) : LuaValue → Option (List Char)
  | .wrapper w =>
    if ObjectWrapper.Is st w .BODY then
      match w.m_obj with
      | some oid =>
          some ("ObjectWrapper\n".data ++ natDigits (Serializer.LookupBodyId reg oid) ++ ['\n'])
      | none => none
    else none
  | .sbodyPath p => some ("SBodyPath\n".data ++ p.Serialize)
  | .sysLoc s => some ("SysLoc\n".data ++ s.Serialize)
  | .soundEvent => none
  | .chatForm => none

/-- The observable outcome of one `UserDataUnserialize` call: it
pushes one decoded value, or it pushes nothing (`return 0`, the
unrecognized-tag path), or it never returns at all because the
`ObjectWrapper` constructor dereferences a null entity pointer. -/
inductive DecodeOutcome
  | value (v : LuaValue)
  | nothing
  | nullDeref
deriving DecidableEq, Repr

/-- `UserDataUnserialize` (PiLuaAPI.cpp:155-178): sequential
tag-prefix dispatch (`str.substr(0,14) == "ObjectWrapper\n"`, then
`"SBodyPath\n"`, then `"SysLoc\n"`); an `ObjectWrapper` payload's body
goes through `atoi`, the `(size_t)` cast and `LookupBody`, and the
raw result is passed to `new ObjectWrapper(b)` with no check — the
constructor (PiLuaAPI.cpp:29) unconditionally dereferences its
argument (`o->onDelete.connect`), so when the lookup yields no entity
the call dereferences null and never produces a value; an unrecognized
tag yields no value (`return 0`). -/
def UserDataUnserialize (reg : Registry) (cs : List Char) : DecodeOutcome :=
  if cs.take 14 = "ObjectWrapper\n".data then
    let idx : Nat := sizeTCast (atoi (cs.drop 14))
    match Serializer.LookupBody reg idx with
    | some oid => .value (.wrapper ⟨some oid⟩)
    | none => .nullDeref
  else if cs.take 10 = "SBodyPath\n".data then
    .value (.sbodyPath (SBodyPath.Unserialize (cs.drop 10)).1)
  else if cs.take 7 = "SysLoc\n".data then
    .value (.sysLoc (SysLoc.Unserialize (cs.drop 7)).1)
  else
    .nothing

/-- The leading tag of a payload: the characters before the first
newline. -/
def leadingTag (cs : List Char) : List Char :=
  cs.takeWhile (fun c => c != '\n')

/-- The tags with a registered codec branch. -/
def registeredTagNames : List (List Char) :=
  ["ObjectWrapper".data, "SBodyPath".data, "SysLoc".data]

/-- Does a value's runtime kind have a codec branch in
`UserDataSerialize`? -/
def hasCodec : LuaValue → Bool
  | .wrapper _ => true
  | .sbodyPath _ => true
  | .sysLoc _ => true
  | .soundEvent => false
  | .chatForm => false

/-! ### ShipType and SpawnShip (ShipType.h:45-49, PiLuaAPI.cpp:231-284) -/

/-- `ShipType` (ShipType.h:13-52); only the identity matters to the
lookup, so the model keeps the name field. -/
structure ShipType where
  name : String
deriving DecidableEq, Repr

/-- `ShipType::Get` (ShipType.h:45-49): `types.find(name)`, null when
the name is not a key of the ship-type table.  The `std::map` is
modelled as an association list with unique keys. -/
def ShipType.Get (types : List (String × ShipType)) (name : String) : Option ShipType :=
  (types.find? (fun p => p.1 == name)).map (fun p => p.2)

/-- A body added to the world by `SpawnShip`: either the ship itself
(`Space::AddBody(ship)`, PiLuaAPI.cpp:258) or a hyperspace cloud
carrying it (PiLuaAPI.cpp:268/279). -/
inductive SpawnedBody
  | ship (type : String)
  | cloud (shipType : String) (due : Rat)
deriving DecidableEq, Repr

/-- What `SpawnShip` returns to Lua: a wrapper over the new ship, or
nil plus an error string. -/
inductive SpawnResult
  | ok
  | err (msg : String)
deriving DecidableEq, Repr

/-- `LuaPi::SpawnShip` (PiLuaAPI.cpp:231-284).  The C `double` times
are modelled as exact rationals; `HYPERCLOUD_DURATION` (a constant
defined outside src/) is a parameter.  Returns the Lua-visible result
and the world body list after the call. -/
def LuaPi.SpawnShip (types : List (String × ShipType)) (gameTime hypercloudDuration : Rat)
    (systemBeingBuilt : Bool) (world : List SpawnedBody) (due : Rat) (typeName : String) :
    SpawnResult × List SpawnedBody :=
  if (ShipType.Get types typeName).isNone then
    (.err "Unknown ship type", world)
  else
    if due ≤ gameTime then
      if ¬ systemBeingBuilt then
        (.err "Insufficient time to generate ship entry", world)
      else
        if due ≤ 0 ∨ due < gameTime - hypercloudDuration then
          (.ok, world ++ [.ship typeName])
        else
          (.ok, world ++ [.cloud typeName due])
    else
      (.ok, world ++ [.cloud typeName due])

/-! ### EquipSet (ShipType.h:54-129) -/

/-- `Equip::Type` (EquipType.h, outside src/): all that `EquipSet`
uses is the `NONE` sentinel and equality, so the other members are
modelled as numbered items. -/
inductive EType
  | NONE
  | item (n : Nat)
deriving DecidableEq, Repr

/-- The scan loop of `EquipSet::Add` (ShipType.h:81-87) on one slot's
vector: `numDone` counts filled slots; the loop breaks when
`numDone == num`, fills each `NONE` slot with `e`, and leaves the rest
alone.  Returns the updated vector and the final `numDone`. -/
def addLoop (e : EType) (num : Int) : List EType → Int → List EType × Int
  | [], numDone => ([], numDone)
  | x :: xs, numDone =>
    if numDone = num then (x :: xs, numDone)
    else
      if x = .NONE then
        let r := addLoop e num xs (numDone + 1)
        (e :: r.1, r.2)
      else
        let r := addLoop e num xs numDone
        (x :: r.1, r.2)

/-- `EquipSet::Add(e, num)` (ShipType.h:78-90) restricted to the slot
vector the equipment type hashes to: runs the scan loop from
`numDone = 0` and returns `(numDone == num)`. -/
def EquipSet.Add (slotVec : List EType) (e : EType) (num : Int) : List EType × Bool :=
  let r := addLoop e num slotVec 0
  (r.1, r.2 == num)

/-- `EquipSet::FreeSpace` (ShipType.h:116-122): the number of `NONE`
slots in the slot vector. -/
def EquipSet.FreeSpace (slotVec : List EType) : Int :=
  (slotVec.count .NONE : Int)

/-- The claim's description of `Add`: fill the first `k` empty slots
with `e`, scanning from the lowest index upward, leaving every
non-empty slot unchanged. -/
def fillFirstEmpty (e : EType) : List EType → Nat → List EType
  | l, 0 => l
  | [], _ + 1 => []
  | x :: xs, k + 1 =>
    if x = .NONE then e :: fillFirstEmpty e xs k
    else x :: fillFirstEmpty e xs (k + 1)

/-! ### Claims about the handle operations -/

/-- The wrappers whose `OnDelete` callback fires when `oid`'s
destruction is notified: the subscribers of `oid`. -/
def notifyTargets (st : SimState) (oid : ObjId) : List HandleId :=
  (st.subs.filter (fun p => p.1 == oid)).map Prod.snd

/-- Claim C4: on a detached handle the money query returns the neutral
value 0 and the label query returns the empty string, and likewise
whenever the wrapped entity is not of the operation's required kind;
no undefined read happens (the operations are total). -/
theorem c4_detached_neutral (st : SimState) (w : ObjectWrapper) :
    (w.m_obj = none →
      ObjectWrapper.GetMoney st w = 0 ∧ ObjectWrapper.GetLabel st w = "") ∧
    (ObjectWrapper.Is st w .SHIP = false → ObjectWrapper.GetMoney st w = 0) ∧
    (ObjectWrapper.Is st w .BODY = false → ObjectWrapper.GetLabel st w = "") := by
  refine ⟨?_, ?_, ?_⟩
  · intro h
    have hS : ObjectWrapper.Is st w .SHIP = false := by
      simp [ObjectWrapper.Is, h]
    have hB : ObjectWrapper.Is st w .BODY = false := by
      simp [ObjectWrapper.Is, h]
    exact ⟨by simp [ObjectWrapper.GetMoney, hS], by simp [ObjectWrapper.GetLabel, hB]⟩
  · intro h
    simp [ObjectWrapper.GetMoney, h]
  · intro h
    simp [ObjectWrapper.GetLabel, h]

/-- Witness for C4 at a concrete detached handle. -/
theorem c4_detached_neutral_witness :
    (⟨none⟩ : ObjectWrapper).m_obj = none ∧
    ObjectWrapper.GetMoney ⟨[], [], []⟩ ⟨none⟩ = 0 ∧
    ObjectWrapper.GetLabel ⟨[], [], []⟩ ⟨none⟩ = "" :=
  ⟨rfl, (c4_detached_neutral ⟨[], [], []⟩ ⟨none⟩).1 rfl⟩

/-- Claim C8: destroying a handle removes its deletion-signal
subscription unconditionally — for every state, whether the handle is
still attached or already detached — so no entity's destruction
notification can ever reach the destroyed handle. -/
theorem c8_destructor_unsubscribes (st : SimState) (hid : HandleId) :
    (∀ p ∈ (ObjectWrapper.destroy st hid).subs, p.2 ≠ hid) ∧
    (∀ oid, hid ∉ notifyTargets (ObjectWrapper.destroy st hid) oid) := by
  constructor
  · intro p hp
    have := List.of_mem_filter hp
    simpa using this
  · intro oid hmem
    simp only [notifyTargets, List.mem_map] at hmem
    obtain ⟨p, hp, hsnd⟩ := hmem
    have hp' := List.mem_of_mem_filter hp
    have := List.of_mem_filter hp'
    simp at this
    exact this (by simpa using hsnd)

/-- Claim C7: a value whose runtime kind has no registered codec
produces no payload (the code reaches
`Error("Tried to serialize unknown userdata type.")` and returns
nothing). -/
theorem c7_no_codec_no_payload (st : SimState) (reg : Registry) (v : LuaValue)
    (h : hasCodec v = false) : UserDataSerialize st reg v = none := by
  cases v <;> simp_all [hasCodec, UserDataSerialize]

/-- Witness for C7 at a concrete codec-less value. -/
theorem c7_no_codec_no_payload_witness :
    hasCodec .soundEvent = false ∧
    UserDataSerialize ⟨[], [], []⟩ ⟨[]⟩ .soundEvent = none :=
  ⟨rfl, c7_no_codec_no_payload ⟨[], [], []⟩ ⟨[]⟩ .soundEvent rfl⟩

/-- Claim C9: spawning a ship whose type name is not a key of the
ship-type table returns nil with the error string
"Unknown ship type" and leaves the world unchanged. -/
theorem c9_unknown_ship_type (types : List (String × ShipType))
    (gameTime hypercloudDuration : Rat) (systemBeingBuilt : Bool)
    (world : List SpawnedBody) (due : Rat) (typeName : String)
    (h : ShipType.Get types typeName = none) :
    LuaPi.SpawnShip types gameTime hypercloudDuration systemBeingBuilt world due typeName
      = (.err "Unknown ship type", world) := by
  simp [LuaPi.SpawnShip, h]

/-- Witness for C9 at a concrete unknown ship type. -/
theorem c9_unknown_ship_type_witness :
    ShipType.Get [] "ladybird" = none ∧
    LuaPi.SpawnShip [] 0 10 false [] 5 "ladybird" = (.err "Unknown ship type", []) :=
  ⟨rfl, c9_unknown_ship_type [] 0 10 false [] 5 "ladybird" rfl⟩

/-! ### Claims about the persistence codec -/

theorem natDigits_zero : natDigits 0 = ['0'] := by
  rw [natDigits]
  decide

/-- Claim C5 fails as stated: the entity-reference tag the code writes
is the literal `ObjectWrapper`, not `EntityRef`, and `snprintf`'s
format string `"ObjectWrapper\n%d\n"` terminates the decimal id with a
newline.  Encoding the first handle of a session (the sole live body,
id 0) yields `"ObjectWrapper\n0\n"`, which differs from the claimed
`"EntityRef\n0"`. -/
theorem c5_counterexample :
    UserDataSerialize ⟨[(7, ⟨.SHIP, 0, "A"⟩)], [], []⟩ ⟨[7]⟩ (.wrapper ⟨some 7⟩)
        = some "ObjectWrapper\n0\n".data ∧
    "ObjectWrapper\n0\n".data ≠ "EntityRef\n0".data := by
  constructor
  · show (if ObjectWrapper.Is ⟨[(7, ⟨.SHIP, 0, "A"⟩)], [], []⟩ ⟨some 7⟩ .BODY then
        some ("ObjectWrapper\n".data
          ++ natDigits (Serializer.LookupBodyId ⟨[7]⟩ 7) ++ ['\n'])
      else none) = some "ObjectWrapper\n0\n".data
    rw [if_pos (by decide)]
    have hidx : Serializer.LookupBodyId ⟨[7]⟩ 7 = 0 := by decide
    rw [hidx, natDigits_zero]
    decide
  · decide

/-- Claim C5 amended: every produced payload is a registered tag, a
newline, and a kind-specific body; for an entity reference the tag is
the literal `ObjectWrapper` and the body is the decimal registry id
followed by a newline; the first handle of a session encodes to
exactly `"ObjectWrapper\n0\n"`. -/
theorem c5_amended_payload_shape :
    (∀ st reg v out, UserDataSerialize st reg v = some out →
      ∃ tag body, tag ∈ registeredTagNames ∧ out = tag ++ '\n' :: body) ∧
    (∀ st reg w out, UserDataSerialize st reg (.wrapper w) = some out →
      ∃ oid, w.m_obj = some oid ∧
        out = "ObjectWrapper".data
          ++ '\n' :: (natDigits (Serializer.LookupBodyId reg oid) ++ ['\n'])) ∧
    UserDataSerialize ⟨[(7, ⟨.SHIP, 0, "A"⟩)], [], []⟩ ⟨[7]⟩ (.wrapper ⟨some 7⟩)
      = some "ObjectWrapper\n0\n".data := by
  refine ⟨?_, ?_, ?_⟩
  · intro st reg v out hout
    cases v with
    | wrapper w =>
      rw [UserDataSerialize] at hout
      by_cases hb : ObjectWrapper.Is st w .BODY = true
      · rw [if_pos hb] at hout
        cases hm : w.m_obj with
        | none =>
          rw [hm] at hout
          simp at hout
        | some oid =>
          rw [hm] at hout
          injection hout with h
          subst h
          exact ⟨"ObjectWrapper".data, natDigits (Serializer.LookupBodyId reg oid) ++ ['\n'],
            by decide, rfl⟩
      · rw [if_neg hb] at hout
        simp at hout
    | sbodyPath p =>
      rw [UserDataSerialize] at hout
      injection hout with h
      subst h
      exact ⟨"SBodyPath".data, p.Serialize, by decide, rfl⟩
    | sysLoc s =>
      rw [UserDataSerialize] at hout
      injection hout with h
      subst h
      exact ⟨"SysLoc".data, s.Serialize, by decide, rfl⟩
    | soundEvent => simp [UserDataSerialize] at hout
    | chatForm => simp [UserDataSerialize] at hout
  · intro st reg w out hout
    rw [UserDataSerialize] at hout
    by_cases hb : ObjectWrapper.Is st w .BODY = true
    · rw [if_pos hb] at hout
      cases hm : w.m_obj with
      | none =>
        rw [hm] at hout
        simp at hout
      | some oid =>
        rw [hm] at hout
        injection hout with h
        subst h
        exact ⟨oid, rfl, rfl⟩
    · rw [if_neg hb] at hout
      simp at hout
  · show (if ObjectWrapper.Is ⟨[(7, ⟨.SHIP, 0, "A"⟩)], [], []⟩ ⟨some 7⟩ .BODY then
        some ("ObjectWrapper\n".data
          ++ natDigits (Serializer.LookupBodyId ⟨[7]⟩ 7) ++ ['\n'])
      else none) = some "ObjectWrapper\n0\n".data
    rw [if_pos (by decide)]
    have hidx : Serializer.LookupBodyId ⟨[7]⟩ 7 = 0 := by decide
    rw [hidx, natDigits_zero]
    decide

/-- Witness for the amended C5 at the concrete first-handle payload. -/
theorem c5_amended_payload_shape_witness :
    ∃ oid, (⟨some 7⟩ : ObjectWrapper).m_obj = some oid ∧
      "ObjectWrapper\n0\n".data = "ObjectWrapper".data
        ++ '\n' :: (natDigits (Serializer.LookupBodyId ⟨[7]⟩ oid) ++ ['\n']) :=
  c5_amended_payload_shape.2.1 ⟨[(7, ⟨.SHIP, 0, "A"⟩)], [], []⟩ ⟨[7]⟩ ⟨some 7⟩
    "ObjectWrapper\n0\n".data c5_amended_payload_shape.2.2

theorem sizeTCast_ofNat (n : Nat) (h : n < 2 ^ 64) : sizeTCast (n : Int) = n := by
  simp only [sizeTCast]
  omega

/-- Claim C3 fails as stated: decoding an entity-reference payload
whose id resolves to no live entity (empty registry, id 0) does not
fail with an `UnresolvedReference` error — the decode path has no
failure branch at all.  The null lookup result flows into
`new ObjectWrapper(b)` (PiLuaAPI.cpp:162), whose constructor
unconditionally dereferences its argument (PiLuaAPI.cpp:29), so the
call crashes: it produces neither a defined failure nor any value. -/
theorem c3_counterexample :
    UserDataUnserialize ⟨[]⟩ "ObjectWrapper\n0\n".data = .nullDeref ∧
    (∀ v, UserDataUnserialize ⟨[]⟩ "ObjectWrapper\n0\n".data ≠ .value v) ∧
    UserDataUnserialize ⟨[]⟩ "ObjectWrapper\n0\n".data ≠ .nothing := by
  have hout : UserDataUnserialize ⟨[]⟩ "ObjectWrapper\n0\n".data = .nullDeref := by
    decide
  refine ⟨hout, ?_, ?_⟩
  · intro v h
    rw [hout] at h
    exact DecodeOutcome.noConfusion h
  · intro h
    rw [hout] at h
    exact DecodeOutcome.noConfusion h

/-- Claim C3 amended: decoding an entity-reference payload whose id
was never assigned in the current session does not fail with an
`UnresolvedReference` error: the unchecked null lookup result is
passed to the `ObjectWrapper` constructor, whose unconditional
dereference of it makes the decode crash (null dereference), so no
value — in particular no detached handle — and no defined failure is
ever produced. -/
theorem c3_amended_unresolved_crash (reg : Registry) (n : Nat)
    (hlen : reg.bodies.length ≤ n) (hbound : n < 2 ^ 64) :
    UserDataUnserialize reg ("ObjectWrapper\n".data ++ (natDigits n ++ ['\n']))
      = .nullDeref := by
  have htake : ("ObjectWrapper\n".data ++ (natDigits n ++ ['\n'])).take 14
      = "ObjectWrapper\n".data := List.take_left' (by decide)
  have hdrop : ("ObjectWrapper\n".data ++ (natDigits n ++ ['\n'])).drop 14
      = natDigits n ++ ['\n'] := List.drop_left' (by decide)
  have hatoi : atoi (natDigits n ++ ['\n']) = n := by
    apply atoi_natDigits
    intro c h
    simp at h
    subst h
    decide
  simp only [UserDataUnserialize, htake, hdrop, hatoi, if_true]
  rw [sizeTCast_ofNat n hbound]
  have : Serializer.LookupBody reg n = none := by
    simp only [Serializer.LookupBody]
    exact List.get?_eq_none.mpr hlen
  rw [this]

/-- Witness for the amended C3 at a concrete empty session. -/
theorem c3_amended_unresolved_crash_witness :
    (⟨[]⟩ : Registry).bodies.length ≤ 3 ∧ 3 < 2 ^ 64 ∧
    UserDataUnserialize ⟨[]⟩ ("ObjectWrapper\n".data ++ (natDigits 3 ++ ['\n']))
      = .nullDeref :=
  ⟨by decide, by norm_num,
    c3_amended_unresolved_crash ⟨[]⟩ 3 (by decide) (by norm_num)⟩

theorem takeWhile_append_newline (t cs : List Char)
    (ht : ∀ c ∈ t, (c != '\n') = true) :
    (t ++ '\n' :: cs).takeWhile (fun c => c != '\n') = t := by
  induction t with
  | nil => simp [List.takeWhile_cons]
  | cons a t' ih =>
    have ha : (a != '\n') = true := ht a (List.mem_cons_self a t')
    have ht' : ∀ c ∈ t', (c != '\n') = true := fun c hc => ht c (List.mem_cons_of_mem a hc)
    simp only [List.cons_append, List.takeWhile_cons, ha, if_true]
    rw [ih ht']

/-- Claim C6: decoding any payload whose leading tag is not one of the
registered kinds yields no value (the code falls through every prefix
test and returns nothing, without raising an error), and an unrelated,
correctly-tagged payload decoded in the same session still succeeds. -/
theorem c6_unknown_tag (cs : List Char) (reg : Registry)
    (h : leadingTag cs ∉ registeredTagNames) :
    UserDataUnserialize reg cs = .nothing ∧
    UserDataUnserialize reg "SysLoc\n1\n2\n3\n".data
      = .value (.sysLoc ⟨1, 2, 3⟩) := by
  constructor
  · have h1 : ¬ (cs.take 14 = "ObjectWrapper\n".data) := by
      intro he
      apply h
      have hcs : cs = "ObjectWrapper".data ++ '\n' :: cs.drop 14 := by
        conv_lhs => rw [← List.take_append_drop 14 cs]
        rw [he]
        rfl
      rw [leadingTag, hcs, takeWhile_append_newline _ _ (by decide)]
      simp [registeredTagNames]
    have h2 : ¬ (cs.take 10 = "SBodyPath\n".data) := by
      intro he
      apply h
      have hcs : cs = "SBodyPath".data ++ '\n' :: cs.drop 10 := by
        conv_lhs => rw [← List.take_append_drop 10 cs]
        rw [he]
        rfl
      rw [leadingTag, hcs, takeWhile_append_newline _ _ (by decide)]
      simp [registeredTagNames]
    have h3 : ¬ (cs.take 7 = "SysLoc\n".data) := by
      intro he
      apply h
      have hcs : cs = "SysLoc".data ++ '\n' :: cs.drop 7 := by
        conv_lhs => rw [← List.take_append_drop 7 cs]
        rw [he]
        rfl
      rw [leadingTag, hcs, takeWhile_append_newline _ _ (by decide)]
      simp [registeredTagNames]
    rw [UserDataUnserialize, if_neg h1, if_neg h2, if_neg h3]
  · rfl

/-- Witness for C6 at the concrete bogus payload `"Bogus\nxyz"`. -/
theorem c6_unknown_tag_witness :
    leadingTag "Bogus\nxyz".data ∉ registeredTagNames ∧
    UserDataUnserialize ⟨[]⟩ "Bogus\nxyz".data = .nothing :=
  ⟨by decide, (c6_unknown_tag "Bogus\nxyz".data ⟨[]⟩ (by decide)).1⟩

theorem SysLoc_unserialize_serialize (s : SysLoc) (rest : List Char) :
    SysLoc.Unserialize (s.Serialize ++ rest) = (s, rest) := by
  rw [SysLoc.Serialize, SysLoc.Unserialize]
  simp only [List.append_assoc]
  rw [rdInt_wrInt]
  simp only
  rw [rdInt_wrInt]
  simp only
  rw [rdInt_wrInt]

theorem SBodyPath_unserialize_serialize (p : SBodyPath) (rest : List Char) :
    SBodyPath.Unserialize (p.Serialize ++ rest) = (p, rest) := by
  rw [SBodyPath.Serialize, SBodyPath.Unserialize, wrIntList]
  simp only [List.append_assoc]
  rw [SysLoc_unserialize_serialize]
  simp only
  rw [rdInt_wrInt]
  simp only [Int.toNat_natCast]
  rw [rdIntN_wrInts]

/-- A value supported by the codec: an attached entity-reference
handle over a live, registered body, or a hierarchical body path, or a
system location. -/
def Supported (st : SimState) (reg : Registry) : LuaValue → Prop
  | .wrapper w => ∃ oid o, w.m_obj = some oid ∧ lookupObj st oid = some o ∧
      isTypeKind o.kind .BODY = true ∧ oid ∈ reg.bodies
  | .sbodyPath _ => True
  | .sysLoc _ => True
  | .soundEvent => False
  | .chatForm => False

/-- Observable equivalence after a round trip: same entity identity
for entity references, structural equality for the hierarchical
kinds. -/
def ObservEquiv : LuaValue → LuaValue → Prop
  | .wrapper w, .wrapper w' => w.m_obj = w'.m_obj
  | v, v' => v = v'

theorem take14_of_sbody_tagged (x : List Char) :
    ("SBodyPath\n".data ++ x).take 14 ≠ "ObjectWrapper\n".data := by
  intro h
  rw [show ("SBodyPath\n".data ++ x).take 14
      = 'S' :: ("BodyPath\n".data ++ x).take 13 from rfl] at h
  injection h with h1 _
  exact absurd h1 (by decide)

theorem take14_of_sysloc_tagged (x : List Char) :
    ("SysLoc\n".data ++ x).take 14 ≠ "ObjectWrapper\n".data := by
  intro h
  rw [show ("SysLoc\n".data ++ x).take 14
      = 'S' :: ("ysLoc\n".data ++ x).take 13 from rfl] at h
  injection h with h1 _
  exact absurd h1 (by decide)

theorem take10_of_sysloc_tagged (x : List Char) :
    ("SysLoc\n".data ++ x).take 10 ≠ "SBodyPath\n".data := by
  intro h
  rw [show ("SysLoc\n".data ++ x).take 10
      = 'S' :: 'y' :: ("sLoc\n".data ++ x).take 8 from rfl] at h
  injection h with _ h2
  injection h2 with h3 _
  exact absurd h3 (by decide)

/-- Claim C1: the round-trip law.  For every supported value —
an attached entity-reference handle over a live registered body (in a
session whose registry fits a `size_t`), a hierarchical body path, or
a system location — decoding the encoded payload succeeds and yields
an observably equivalent value: the same entity identity for the
entity reference, structurally equal fields for the hierarchical
kinds. -/
theorem c1_round_trip (st : SimState) (reg : Registry) (v : LuaValue)
    (hsup : Supported st reg v) (hsize : reg.bodies.length < 2 ^ 64) :
    ∃ out v', UserDataSerialize st reg v = some out ∧
      UserDataUnserialize reg out = .value v' ∧ ObservEquiv v v' := by
  cases v with
  | wrapper w =>
    obtain ⟨oid, o, hm, hobj, hkind, hmem⟩ := hsup
    have hIs : ObjectWrapper.Is st w .BODY = true := by
      simp [ObjectWrapper.Is, hm, hobj, hkind]
    refine ⟨"ObjectWrapper\n".data
        ++ natDigits (Serializer.LookupBodyId reg oid) ++ ['\n'],
      .wrapper ⟨some oid⟩, ?_, ?_, ?_⟩
    · rw [UserDataSerialize, if_pos hIs, hm]
    · have htake : ("ObjectWrapper\n".data
          ++ natDigits (Serializer.LookupBodyId reg oid) ++ ['\n']).take 14
          = "ObjectWrapper\n".data := by
        rw [List.append_assoc]
        exact List.take_left' (by decide)
      have hdrop : ("ObjectWrapper\n".data
          ++ natDigits (Serializer.LookupBodyId reg oid) ++ ['\n']).drop 14
          = natDigits (Serializer.LookupBodyId reg oid) ++ ['\n'] := by
        rw [List.append_assoc]
        exact List.drop_left' (by decide)
      have hatoi : atoi (natDigits (Serializer.LookupBodyId reg oid) ++ ['\n'])
          = (Serializer.LookupBodyId reg oid : Int) := by
        apply atoi_natDigits
        intro c h
        simp at h
        subst h
        decide
      have hidx : Serializer.LookupBodyId reg oid < reg.bodies.length := by
        rw [Serializer.LookupBodyId]
        exact List.indexOf_lt_length.mpr hmem
      have hcast : sizeTCast ((Serializer.LookupBodyId reg oid : Nat) : Int)
          = Serializer.LookupBodyId reg oid :=
        sizeTCast_ofNat _ (by omega)
      have hlook : Serializer.LookupBody reg (Serializer.LookupBodyId reg oid)
          = some oid := by
        rw [Serializer.LookupBody, Serializer.LookupBodyId]
        exact List.indexOf_get? hmem
      simp only [UserDataUnserialize, htake, hdrop, hatoi, if_true, hcast, hlook]
    · rw [ObservEquiv, hm]
  | sbodyPath p =>
    refine ⟨"SBodyPath\n".data ++ p.Serialize, .sbodyPath p, rfl, ?_, rfl⟩
    rw [UserDataUnserialize, if_neg (take14_of_sbody_tagged _)]
    rw [if_pos (List.take_left' (by decide))]
    rw [List.drop_left' (by decide)]
    have := SBodyPath_unserialize_serialize p []
    rw [List.append_nil] at this
    rw [this]
  | sysLoc s =>
    refine ⟨"SysLoc\n".data ++ s.Serialize, .sysLoc s, rfl, ?_, rfl⟩
    rw [UserDataUnserialize, if_neg (take14_of_sysloc_tagged _),
      if_neg (take10_of_sysloc_tagged _)]
    rw [if_pos (List.take_left' (by decide))]
    rw [List.drop_left' (by decide)]
    have := SysLoc_unserialize_serialize s []
    rw [List.append_nil] at this
    rw [this]
  | soundEvent => exact absurd hsup (by simp [Supported])
  | chatForm => exact absurd hsup (by simp [Supported])

/-- Witness for C1: a concrete session with one live ship round-trips
its handle. -/
theorem c1_round_trip_witness :
    Supported ⟨[(7, ⟨.SHIP, 0, "A"⟩)], [], []⟩ ⟨[7]⟩ (.wrapper ⟨some 7⟩) ∧
    (⟨[7]⟩ : Registry).bodies.length < 2 ^ 64 ∧
    (∃ out v', UserDataSerialize ⟨[(7, ⟨.SHIP, 0, "A"⟩)], [], []⟩ ⟨[7]⟩
        (.wrapper ⟨some 7⟩) = some out ∧
      UserDataUnserialize ⟨[7]⟩ out = .value v' ∧
      ObservEquiv (.wrapper ⟨some 7⟩) v') := by
  have hsup : Supported ⟨[(7, ⟨.SHIP, 0, "A"⟩)], [], []⟩ ⟨[7]⟩ (.wrapper ⟨some 7⟩) :=
    ⟨7, ⟨.SHIP, 0, "A"⟩, rfl, by decide, rfl, by decide⟩
  exact ⟨hsup, by norm_num,
    c1_round_trip ⟨[(7, ⟨.SHIP, 0, "A"⟩)], [], []⟩ ⟨[7]⟩ (.wrapper ⟨some 7⟩)
      hsup (by norm_num)⟩

/-! ### The handle lifecycle (C2) -/

theorem find?_map_key {α : Type} (l : List (Nat × α)) (f : Nat → α → α) (k : Nat) :
    (l.map (fun p => (p.1, f p.1 p.2))).find? (fun p => p.1 == k)
      = (l.find? (fun p => p.1 == k)).map (fun p => (p.1, f p.1 p.2)) := by
  induction l with
  | nil => rfl
  | cons a l ih =>
    by_cases h : a.1 = k
    · simp [List.find?_cons, h]
    · simp [List.find?_cons, h, ih]

theorem find?_filter_key {α : Type} (l : List (Nat × α)) (k k' : Nat) (hne : k ≠ k') :
    (l.filter (fun p => p.1 != k')).find? (fun p => p.1 == k)
      = l.find? (fun p => p.1 == k) := by
  induction l with
  | nil => rfl
  | cons a l ih =>
    by_cases hk' : a.1 = k'
    · have hak : ¬ a.1 = k := by omega
      simp [List.filter_cons, List.find?_cons, hk', hak, ih, Ne.symm hne]
    · by_cases hk : a.1 = k
      · simp [List.filter_cons, List.find?_cons, hk', hk, hne]
      · simp [List.filter_cons, List.find?_cons, hk', hk, ih]

theorem lookupHandle_mem_keys (st : SimState) (hid : HandleId) (w : ObjectWrapper)
    (h : lookupHandle st hid = some w) : ∃ p ∈ st.handles, p.1 = hid := by
  rw [lookupHandle] at h
  cases hf : st.handles.find? (fun p => p.1 == hid) with
  | none => rw [hf] at h; cases h
  | some p =>
    refine ⟨p, List.mem_of_find?_eq_some hf, ?_⟩
    have := List.find?_some hf
    simpa using this

theorem setMoney_preserves (st : SimState) (hid : HandleId) (m : Rat) :
    (ObjectWrapper.SetMoney st hid m).handles = st.handles ∧
    (ObjectWrapper.SetMoney st hid m).subs = st.subs := by
  rw [ObjectWrapper.SetMoney]
  cases lookupHandle st hid with
  | none => exact ⟨rfl, rfl⟩
  | some w =>
    simp only
    by_cases hs : ObjectWrapper.Is st w .SHIP = true
    · rw [if_pos hs]
      cases w.m_obj with
      | none => exact ⟨rfl, rfl⟩
      | some oid => exact ⟨rfl, rfl⟩
    · rw [if_neg hs]
      exact ⟨rfl, rfl⟩

theorem lookupHandle_find (st : SimState) (hid : HandleId) (w : ObjectWrapper)
    (h : lookupHandle st hid = some w) :
    st.handles.find? (fun p => p.1 == hid) = some (hid, w) := by
  rw [lookupHandle] at h
  cases hf : st.handles.find? (fun p => p.1 == hid) with
  | none => rw [hf] at h; cases h
  | some p =>
    rw [hf, Option.map_some'] at h
    injection h with h2
    have hk := List.find?_some hf
    simp only [beq_iff_eq] at hk
    cases p
    simp only at hk h2
    subst hk
    subst h2
    rfl


theorem find?_key_cons {α : Type} (a : Nat × α) (l : List (Nat × α)) (k : Nat) :
    (a :: l).find? (fun p => p.1 == k)
      = if a.1 = k then some a else l.find? (fun p => p.1 == k) := by
  rw [List.find?_cons]
  by_cases h : a.1 = k
  · have hb : (a.1 == k) = true := by simpa using h
    rw [hb, if_pos h]
  · have hb : (a.1 == k) = false := by simpa using h
    rw [hb, if_neg h]

theorem lookupHandle_new (st : SimState) (hid' : HandleId) (oid' : ObjId) (hid : HandleId) :
    lookupHandle (ObjectWrapper.new st hid' oid') hid
      = if hid' = hid then some ⟨some oid'⟩ else lookupHandle st hid := by
  rw [lookupHandle, lookupHandle]
  show ((((hid', (⟨some oid'⟩ : ObjectWrapper))) :: st.handles).find?
      (fun p => p.1 == hid)).map (fun p => p.2) = _
  rw [find?_key_cons]
  by_cases h : hid' = hid
  · simp [h]
  · simp [h]

theorem lookupHandle_notify (st : SimState) (oid'' : ObjId) (hid : HandleId) :
    lookupHandle (notifyDestruction st oid'') hid
      = (lookupHandle st hid).map
          (fun w => if (oid'', hid) ∈ st.subs then ObjectWrapper.OnDelete w else w) := by
  rw [lookupHandle, lookupHandle]
  show ((st.handles.map (fun p =>
      (p.1, if (oid'', p.1) ∈ st.subs then ObjectWrapper.OnDelete p.2 else p.2))).find?
      (fun p => p.1 == hid)).map (fun p => p.2) = _
  rw [find?_map_key st.handles
    (fun k v => if (oid'', k) ∈ st.subs then ObjectWrapper.OnDelete v else v) hid]
  cases hf : st.handles.find? (fun p => p.1 == hid) with
  | none => rfl
  | some p =>
    have hk : p.1 = hid := by simpa using List.find?_some hf
    simp [hk]

theorem lookupHandle_destroy_ne (st : SimState) (hid'' hid : HandleId) (h : hid ≠ hid'') :
    lookupHandle (ObjectWrapper.destroy st hid'') hid = lookupHandle st hid := by
  rw [lookupHandle, lookupHandle]
  show ((st.handles.filter (fun p => p.1 != hid'')).find?
      (fun p => p.1 == hid)).map (fun p => p.2) = _
  rw [find?_filter_key st.handles hid hid'' h]

theorem lookupHandle_setMoney (st : SimState) (hid'' : HandleId) (m : Rat) (hid : HandleId) :
    lookupHandle (ObjectWrapper.SetMoney st hid'' m) hid = lookupHandle st hid := by
  rw [lookupHandle, lookupHandle, (setMoney_preserves st hid'' m).1]

theorem subs_new (st : SimState) (hid' : HandleId) (oid' : ObjId) :
    (ObjectWrapper.new st hid' oid').subs = (oid', hid') :: st.subs := rfl

theorem subs_notify (st : SimState) (oid'' : ObjId) :
    (notifyDestruction st oid'').subs = st.subs.filter (fun p => p.1 != oid'') := rfl

theorem subs_destroy (st : SimState) (hid'' : HandleId) :
    (ObjectWrapper.destroy st hid'').subs = st.subs.filter (fun p => p.2 != hid'') := rfl

/-- Claim C2: a handle constructed over a live entity reports that
entity as its live relation immediately after construction; the
relation turns detached exactly when the entity's destruction
notification fires (no other event detaches it); and once detached the
handle never reports live again under any later event. -/
theorem c2_handle_lifecycle :
    (∀ st hid oid,
        (∀ p ∈ st.handles, p.1 ≠ hid) → (∀ p ∈ st.subs, p.2 ≠ hid) →
        HandleAttached (ObjectWrapper.new st hid oid) hid oid) ∧
    (∀ st hid oid ev, HandleAttached st hid oid → EvOK st ev →
        (ev = .destroyEntity oid →
          lookupHandle (applyEvent st ev) hid = some ⟨none⟩) ∧
        (ev ≠ .destroyEntity oid → ev ≠ .destroyHandle hid →
          HandleAttached (applyEvent st ev) hid oid)) ∧
    (∀ st hid ev, lookupHandle st hid = some ⟨none⟩ → EvOK st ev →
        ev ≠ .destroyHandle hid →
        lookupHandle (applyEvent st ev) hid = some ⟨none⟩) := by
  refine ⟨?_, ?_, ?_⟩
  · -- construction
    intro st hid oid _hf hs
    refine ⟨?_, ?_, ?_⟩
    · rw [lookupHandle_new]
      simp
    · rw [subs_new]
      exact List.mem_cons_self _ _
    · intro o' hmem
      rw [subs_new] at hmem
      rcases List.mem_cons.mp hmem with h | h
      · exact (Prod.ext_iff.mp h).1
      · exact absurd rfl (hs _ h)
  · -- step from the attached state
    intro st hid oid ev hatt hok
    obtain ⟨hlook, hsub, huniq⟩ := hatt
    cases ev with
    | newHandle hid' oid' =>
      obtain ⟨hfr, _, _⟩ := hok
      obtain ⟨p, hpmem, hpk⟩ := lookupHandle_mem_keys st hid _ hlook
      have hne : hid' ≠ hid := by
        intro he
        exact hfr (List.mem_map.mpr ⟨p, hpmem, by rw [hpk, he]⟩)
      constructor
      · intro he
        exact SimEvent.noConfusion he
      · intro _ _
        refine ⟨?_, ?_, ?_⟩
        · show lookupHandle (ObjectWrapper.new st hid' oid') hid = _
          rw [lookupHandle_new, if_neg hne]
          exact hlook
        · show (oid, hid) ∈ (ObjectWrapper.new st hid' oid').subs
          rw [subs_new]
          exact List.mem_cons_of_mem _ hsub
        · intro o' hmem
          have hmem' : (o', hid) ∈ (ObjectWrapper.new st hid' oid').subs := hmem
          rw [subs_new] at hmem'
          rcases List.mem_cons.mp hmem' with h | h
          · injection h with _ h2
            exact absurd h2.symm hne
          · exact huniq o' h
    | destroyEntity oid'' =>
      constructor
      · intro he
        injection he with h
        subst h
        show lookupHandle (notifyDestruction st oid'') hid = _
        rw [lookupHandle_notify, hlook]
        simp [hsub, ObjectWrapper.OnDelete]
      · intro hne'' _
        have hne : oid'' ≠ oid := by
          intro he
          exact hne'' (by rw [he])
        have hnotmem : (oid'', hid) ∉ st.subs := fun hm => hne (huniq oid'' hm)
        refine ⟨?_, ?_, ?_⟩
        · show lookupHandle (notifyDestruction st oid'') hid = _
          rw [lookupHandle_notify, hlook]
          simp [hnotmem]
        · show (oid, hid) ∈ (notifyDestruction st oid'').subs
          rw [subs_notify]
          refine List.mem_filter.mpr ⟨hsub, ?_⟩
          simpa using Ne.symm hne
        · intro o' hmem
          have hmem' : (o', hid) ∈ (notifyDestruction st oid'').subs := hmem
          rw [subs_notify] at hmem'
          exact huniq o' (List.mem_filter.mp hmem').1
    | destroyHandle hid'' =>
      constructor
      · intro he
        exact SimEvent.noConfusion he
      · intro _ hne''
        have hne : hid'' ≠ hid := by
          intro he
          exact hne'' (by rw [he])
        refine ⟨?_, ?_, ?_⟩
        · show lookupHandle (ObjectWrapper.destroy st hid'') hid = _
          rw [lookupHandle_destroy_ne st hid'' hid (Ne.symm hne)]
          exact hlook
        · show (oid, hid) ∈ (ObjectWrapper.destroy st hid'').subs
          rw [subs_destroy]
          refine List.mem_filter.mpr ⟨hsub, ?_⟩
          simpa using Ne.symm hne
        · intro o' hmem
          have hmem' : (o', hid) ∈ (ObjectWrapper.destroy st hid'').subs := hmem
          rw [subs_destroy] at hmem'
          exact huniq o' (List.mem_filter.mp hmem').1
    | setMoney hid'' m =>
      constructor
      · intro he
        exact SimEvent.noConfusion he
      · intro _ _
        refine ⟨?_, ?_, ?_⟩
        · show lookupHandle (ObjectWrapper.SetMoney st hid'' m) hid = _
          rw [lookupHandle_setMoney]
          exact hlook
        · show (oid, hid) ∈ (ObjectWrapper.SetMoney st hid'' m).subs
          rw [(setMoney_preserves st hid'' m).2]
          exact hsub
        · intro o' hmem
          have hmem' : (o', hid) ∈ (ObjectWrapper.SetMoney st hid'' m).subs := hmem
          rw [(setMoney_preserves st hid'' m).2] at hmem'
          exact huniq o' hmem'
  · -- the detached state persists
    intro st hid ev hdet hok hne''
    cases ev with
    | newHandle hid' oid' =>
      obtain ⟨hfr, _, _⟩ := hok
      obtain ⟨p, hpmem, hpk⟩ := lookupHandle_mem_keys st hid _ hdet
      have hne : hid' ≠ hid := by
        intro he
        exact hfr (List.mem_map.mpr ⟨p, hpmem, by rw [hpk, he]⟩)
      show lookupHandle (ObjectWrapper.new st hid' oid') hid = _
      rw [lookupHandle_new, if_neg hne]
      exact hdet
    | destroyEntity oid'' =>
      show lookupHandle (notifyDestruction st oid'') hid = _
      rw [lookupHandle_notify, hdet]
      simp [ObjectWrapper.OnDelete, ite_self]
    | destroyHandle hid'' =>
      have hne : hid'' ≠ hid := by
        intro he
        exact hne'' (by rw [he])
      show lookupHandle (ObjectWrapper.destroy st hid'') hid = _
      rw [lookupHandle_destroy_ne st hid'' hid (Ne.symm hne)]
      exact hdet
    | setMoney hid'' m =>
      show lookupHandle (ObjectWrapper.SetMoney st hid'' m) hid = _
      rw [lookupHandle_setMoney]
      exact hdet

/-- Witness for C2: a concrete session — one ship, one handle —
exercising construction and the destruction notification. -/
theorem c2_handle_lifecycle_witness :
    ((∀ p ∈ (⟨[(5, ⟨.SHIP, 100, "s"⟩)], [], []⟩ : SimState).handles, p.1 ≠ 0) ∧
      (∀ p ∈ (⟨[(5, ⟨.SHIP, 100, "s"⟩)], [], []⟩ : SimState).subs, p.2 ≠ 0)) ∧
    HandleAttached (ObjectWrapper.new ⟨[(5, ⟨.SHIP, 100, "s"⟩)], [], []⟩ 0 5) 0 5 ∧
    lookupHandle (applyEvent (ObjectWrapper.new ⟨[(5, ⟨.SHIP, 100, "s"⟩)], [], []⟩ 0 5)
      (.destroyEntity 5)) 0 = some ⟨none⟩ := by
  have h1 := c2_handle_lifecycle.1 ⟨[(5, ⟨.SHIP, 100, "s"⟩)], [], []⟩ 0 5
    (by simp) (by simp)
  exact ⟨⟨by simp, by simp⟩, h1,
    (c2_handle_lifecycle.2.1 _ 0 5 (.destroyEntity 5) h1 trivial).1 rfl⟩

/-! ### EquipSet::Add (C10) -/


theorem fillFirstEmpty_zero (e : EType) (l : List EType) : fillFirstEmpty e l 0 = l := by
  cases l <;> rfl

theorem addLoop_spec (e : EType) (num : Int) :
    ∀ (l : List EType) (numDone : Int), numDone ≤ num →
      addLoop e num l numDone
        = (fillFirstEmpty e l (min (num - numDone) ((l.count .NONE : Nat) : Int)).toNat,
           numDone + min (num - numDone) ((l.count .NONE : Nat) : Int)) := by
  intro l
  induction l with
  | nil =>
    intro nd h
    have hz : min (num - nd) (((List.count EType.NONE [] : Nat) : Int)) = 0 := by
      simp only [List.count_nil, Nat.cast_zero]
      omega
    rw [addLoop, hz]
    simp [fillFirstEmpty]
  | cons x xs ih =>
    intro nd h
    rw [addLoop]
    by_cases heq : nd = num
    · rw [if_pos heq]
      have hz : min (num - nd) (((List.count EType.NONE (x :: xs) : Nat) : Int)) = 0 := by
        omega
      rw [hz]
      simp [fillFirstEmpty]
    · rw [if_neg heq]
      have hlt : nd < num := lt_of_le_of_ne h heq
      by_cases hx : x = .NONE
      · rw [if_pos hx]
        rw [ih (nd + 1) (by omega)]
        subst hx
        have hcnt : ((List.count EType.NONE (EType.NONE :: xs) : Nat) : Int)
            = ((List.count EType.NONE xs : Nat) : Int) + 1 := by
          rw [List.count_cons_self]
          push_cast
          ring
        have hmin : min (num - nd) (((List.count EType.NONE (EType.NONE :: xs) : Nat) : Int))
            = 1 + min (num - (nd + 1)) (((List.count EType.NONE xs : Nat) : Int)) := by
          rw [hcnt]
          omega
        have htn : (min (num - nd) (((List.count EType.NONE (EType.NONE :: xs) : Nat) : Int))).toNat
            = (min (num - (nd + 1)) (((List.count EType.NONE xs : Nat) : Int))).toNat + 1 := by
          rw [hmin]
          omega
        rw [htn, hmin]
        have hfill : fillFirstEmpty e (EType.NONE :: xs)
            ((min (num - (nd + 1)) (((List.count EType.NONE xs : Nat) : Int))).toNat + 1)
            = e :: fillFirstEmpty e xs
                (min (num - (nd + 1)) (((List.count EType.NONE xs : Nat) : Int))).toNat := by
          simp [fillFirstEmpty]
        rw [hfill]
        simp only [Prod.mk.injEq]
        exact ⟨trivial, by ring⟩
      · rw [if_neg hx]
        rw [ih nd h]
        have hcnt : ((List.count EType.NONE (x :: xs) : Nat) : Int)
            = ((List.count EType.NONE xs : Nat) : Int) := by
          rw [List.count_cons_of_ne (Ne.symm hx)]
        rw [hcnt]
        simp only [Prod.mk.injEq]
        refine ⟨?_, trivial⟩
        cases hK : (min (num - nd) (((List.count EType.NONE xs : Nat) : Int))).toNat with
        | zero => rw [fillFirstEmpty_zero, fillFirstEmpty_zero]
        | succ k =>
          show x :: fillFirstEmpty e xs (k + 1)
              = if x = EType.NONE then e :: fillFirstEmpty e xs k
                else x :: fillFirstEmpty e xs (k + 1)
          rw [if_neg hx]

/-- Claim C10: `EquipSet::Add(e, num)` fills exactly
`min(num, number of empty slots)` empty slots with `e`, scanning from
the lowest index upward and leaving every non-empty slot unchanged
(that is what `fillFirstEmpty` does), and returns true exactly when
the slot vector held at least `num` empty slots before the call. -/
theorem c10_add_fills_first_empty_slots (l : List EType) (e : EType) (n : Nat) :
    EquipSet.Add l e (n : Int)
      = (fillFirstEmpty e l (min n (l.count .NONE)),
         decide ((n : Int) ≤ EquipSet.FreeSpace l)) := by
  show ((addLoop e (n : Int) l 0).1, (addLoop e (n : Int) l 0).2 == (n : Int)) = _
  rw [addLoop_spec e (n : Int) l 0 (by omega)]
  simp only [Prod.mk.injEq]
  constructor
  · congr 1
    omega
  · by_cases hle : (n : Int) ≤ ((l.count .NONE : Nat) : Int)
    · have h1 : 0 + min ((n : Int) - 0) ((l.count .NONE : Nat) : Int) = (n : Int) := by
        omega
      rw [h1]
      simp only [beq_self_eq_true]
      exact (decide_eq_true hle).symm
    · have h1 : ¬ (0 + min ((n : Int) - 0) ((l.count .NONE : Nat) : Int) = (n : Int)) := by
        omega
      have hb : (0 + min ((n : Int) - 0) ((l.count .NONE : Nat) : Int) == (n : Int))
          = false := by
        simpa using h1
      rw [hb]
      exact (decide_eq_false hle).symm
